import Mathlib

/-!
Verification of the document-structure reconstruction engine of the
QuickFileConverter repository.

The engine lives in two variants in the source:
* `src/src/lib/pdfTools.ts` — `groupTextByPosition`, `analyzeLineGroup`,
  `sanitizeFont` (per-line paragraphs);
* the node fallback script bundled with
  `src/scripts/Convert-PdfToWord-Office.ps1` — `convertPdfToWord`
  (line-merging paragraph segmentation).

JavaScript numbers are modelled by `JSNum`: either a rational or one of the
IEEE-754 special values NaN / +Infinity / -Infinity, with the JS semantics of
the arithmetic, comparison, truthiness and `Math.round` operations the engine
uses.  Strings are modelled as `List Char`.
-/

/-- A JavaScript number: NaN, ±Infinity, or a finite value (idealised as ℚ;
the sign of zero is not tracked). -/
inductive JSNum where
  | nan : JSNum
  | inf : JSNum
  | ninf : JSNum
  | fin : ℚ → JSNum
deriving DecidableEq, Repr

namespace JSNum

/-- JS subtraction `a - b`. -/
def jsub : JSNum → JSNum → JSNum
  | nan, _ => nan
  | _, nan => nan
  | inf, inf => nan
  | inf, ninf => inf
  | inf, fin _ => inf
  | ninf, ninf => nan
  | ninf, inf => ninf
  | ninf, fin _ => ninf
  | fin _, inf => ninf
  | fin _, ninf => inf
  | fin a, fin b => fin (a - b)

/-- JS addition `a + b`. -/
def jadd : JSNum → JSNum → JSNum
  | nan, _ => nan
  | _, nan => nan
  | inf, ninf => nan
  | inf, _ => inf
  | ninf, inf => nan
  | ninf, _ => ninf
  | fin _, inf => inf
  | fin _, ninf => ninf
  | fin a, fin b => fin (a + b)

/-- JS multiplication `a * b`. -/
def jmul : JSNum → JSNum → JSNum
  | nan, _ => nan
  | _, nan => nan
  | inf, inf => inf
  | inf, ninf => ninf
  | inf, fin b => if b = 0 then nan else if 0 < b then inf else ninf
  | ninf, inf => ninf
  | ninf, ninf => inf
  | ninf, fin b => if b = 0 then nan else if 0 < b then ninf else inf
  | fin a, inf => if a = 0 then nan else if 0 < a then inf else ninf
  | fin a, ninf => if a = 0 then nan else if 0 < a then ninf else inf
  | fin a, fin b => fin (a * b)

/-- JS division `a / b`. -/
def jdiv : JSNum → JSNum → JSNum
  | nan, _ => nan
  | _, nan => nan
  | inf, inf => nan
  | inf, ninf => nan
  | ninf, inf => nan
  | ninf, ninf => nan
  | inf, fin b => if 0 ≤ b then inf else ninf
  | ninf, fin b => if 0 ≤ b then ninf else inf
  | fin _, inf => fin 0
  | fin _, ninf => fin 0
  | fin a, fin b =>
    if b = 0 then (if a = 0 then nan else if 0 < a then inf else ninf)
    else fin (a / b)

/-- JS `Math.abs`. -/
def jabs : JSNum → JSNum
  | nan => nan
  | inf => inf
  | ninf => inf
  | fin a => fin |a|

/-- JS `Math.max` of two numbers (NaN-propagating). -/
def jmax : JSNum → JSNum → JSNum
  | nan, _ => nan
  | _, nan => nan
  | inf, _ => inf
  | _, inf => inf
  | ninf, b => b
  | a, ninf => a
  | fin a, fin b => fin (max a b)

/-- JS `Math.round` (half toward +∞ on finite values). -/
def jround : JSNum → JSNum
  | nan => nan
  | inf => inf
  | ninf => ninf
  | fin a => fin (⌊a + 1/2⌋ : ℤ)

/-- JS `<` comparison (false whenever either operand is NaN). -/
def jltB : JSNum → JSNum → Bool
  | nan, _ => false
  | _, nan => false
  | inf, _ => false
  | ninf, ninf => false
  | ninf, _ => true
  | fin _, inf => true
  | fin _, ninf => false
  | fin a, fin b => decide (a < b)

/-- JS `>` comparison: `a > b` is `b < a`. -/
def jgtB (a b : JSNum) : Bool := jltB b a

/-- JS truthiness of a number: `0` and `NaN` are falsy. -/
def jTruthy : JSNum → Bool
  | nan => false
  | fin a => decide (a ≠ 0)
  | _ => true

/-- SameValueZero equality, the key equality used by a JS `Map`
(`NaN` equals `NaN`; `+0` and `-0` are identified, as they already are in ℚ). -/
def svz : JSNum → JSNum → Bool
  | nan, nan => true
  | inf, inf => true
  | ninf, ninf => true
  | fin a, fin b => decide (a = b)
  | _, _ => false

end JSNum

/-! ### List and string utilities shared by both engine variants -/

/-- JavaScript whitespace (the `\s` class and `String.prototype.trim`):
ASCII whitespace, NBSP, the Unicode space separators, line/paragraph
separators and the BOM. -/
def isJsWs (c : Char) : Bool :=
  c = ' ' || c = '\t' || c = '\n' || c = '\r' || c = '\x0b' || c = '\x0c' ||
  c = ' ' || c = ' ' ||
  (0x2000 ≤ c.val && c.val ≤ 0x200a) ||
  c = ' ' || c = ' ' || c = ' ' || c = ' ' ||
  c = '　' || c = '﻿'

/-- JS `String.prototype.trim`: strip whitespace from both ends. -/
def trimJs (s : List Char) : List Char :=
  ((s.dropWhile isJsWs).reverse.dropWhile isJsWs).reverse

/-- JS `String.prototype.includes`: substring containment. -/
def includesJs (hay needle : List Char) : Bool :=
  decide (needle <:+: hay)

/-- JS `String.prototype.toLowerCase` (the engine only ever lowercases
ASCII data, where Lean's `Char.toLower` agrees with JS). -/
def toLowerJs (s : List Char) : List Char := s.map Char.toLower

/-- Stable insertion used to model `Array.prototype.sort(comparator)`:
`a` is placed before the first element `b` it must not follow, i.e. the first
`b` with `¬(comparator a b > 0)`.  `lt a b` below stands for
`¬(comparator a b > 0)`, so ties (and NaN comparisons) keep input order,
matching the stable JS sort. -/
def insertJS {α : Type} (lt : α → α → Bool) (a : α) : List α → List α
  | [] => [a]
  | b :: bs => if lt a b then a :: b :: bs else b :: insertJS lt a bs

/-- Stable sort modelling `Array.prototype.sort(comparator)`. -/
def sortJS {α : Type} (lt : α → α → Bool) : List α → List α
  | [] => []
  | a :: as => insertJS lt a (sortJS lt as)

/-! ### `sanitizeFont` (src/src/lib/pdfTools.ts, lines 903–933) -/

/-- A `\w` character of the JS regexp `\+\w+`: `[A-Za-z0-9_]`. -/
def isWordChar (c : Char) : Bool :=
  ('a' ≤ c && c ≤ 'z') || ('A' ≤ c && c ≤ 'Z') || ('0' ≤ c && c ≤ '9') || c = '_'

/-- `.replace(/\+\w+/, '')`: delete the leftmost occurrence of a `+` followed
by at least one word character together with the maximal word-character run
after it (only the first match, the regexp has no `g` flag). -/
def removeFirstPlusWord : List Char → List Char
  | [] => []
  | '+' :: rest =>
    match rest with
    | [] => ['+']
    | c :: cs =>
      if isWordChar c then (c :: cs).dropWhile isWordChar
      else '+' :: removeFirstPlusWord (c :: cs)
  | c :: rest => c :: removeFirstPlusWord rest

/-- A character kept by `.replace(/[^a-zA-Z0-9\s-]/g, '')`. -/
def isKeptFontChar (c : Char) : Bool :=
  ('a' ≤ c && c ≤ 'z') || ('A' ≤ c && c ≤ 'Z') || ('0' ≤ c && c ≤ '9') ||
  isJsWs c || c = '-'

/-- The two `replace` calls of `sanitizeFont`. -/
def sanitizeFontName (fontName : List Char) : List Char :=
  (removeFirstPlusWord fontName).filter isKeptFontChar

/-- The `fontMap` table of `sanitizeFont`, in object-literal order. -/
def fontMap : List (List Char × List Char) :=
  [("Helvetica".toList, "Calibri".toList),
   ("Times".toList, "Times New Roman".toList),
   ("Courier".toList, "Courier New".toList),
   ("Symbol".toList, "Wingdings".toList),
   ("ZapfDingbats".toList, "Wingdings".toList),
   ("Arial".toList, "Arial".toList),
   ("Georgia".toList, "Georgia".toList),
   ("Verdana".toList, "Verdana".toList),
   ("Comic".toList, "Comic Sans MS".toList),
   ("Trebuchet".toList, "Trebuchet MS".toList)]

/-- `sanitizeFont(fontName?: string): string`.  `none` models an `undefined`
argument; the guard `if (!fontName)` also catches the empty string. -/
def sanitizeFont (fontName : Option (List Char)) : List Char :=
  match fontName with
  | none => "Calibri".toList
  | some name =>
    if name = [] then "Calibri".toList
    else
      let sanitized := sanitizeFontName name
      match fontMap.find? (fun kv => includesJs (toLowerJs sanitized) (toLowerJs kv.1)) with
      | some kv => kv.2
      | none => if sanitized = [] then "Calibri".toList else sanitized

/-! ### The pdfTools.ts engine (src/src/lib/pdfTools.ts, lines 691–797) -/

/-- An item of `textContent.items` as `groupTextByPosition` reads it:
`str`, `transform[4]`/`transform[5]`, `width`, `height`, `fontName`. -/
structure PdfItem where
  str : List Char
  transform4 : JSNum
  transform5 : JSNum
  width : JSNum
  height : JSNum
  fontName : Option (List Char)
deriving DecidableEq, Repr

/-- An element of a line group's `items` array (the object pushed by
`lineGroup.items.push({...})`; the copied `transform` field is never read
again and is omitted). -/
structure LineItem where
  str : List Char
  x : JSNum
  width : JSNum
  height : JSNum
  fontName : Option (List Char)
deriving DecidableEq, Repr

/-- A line group: `{ y, items, avgFontSize }`. -/
structure LineGroup where
  y : JSNum
  items : List LineItem
  avgFontSize : JSNum
deriving DecidableEq, Repr

/-- The clustering threshold `yThreshold = 1.5`. -/
def yThreshold : JSNum := JSNum.fin (3/2)

/-- `Math.round(item.transform[5] * 10) / 10`. -/
def roundY (t5 : JSNum) : JSNum :=
  JSNum.jdiv (JSNum.jround (JSNum.jmul t5 (JSNum.fin 10))) (JSNum.fin 10)

/-- Replace the first list element satisfying `p` by its image under `f`
(in-place mutation of the group found by `Array.prototype.find`). -/
def updateFirst {α : Type} (p : α → Bool) (f : α → α) : List α → List α
  | [] => []
  | a :: as => if p a then f a :: as else a :: updateFirst p f as

/-- `lineGroups.set(y, lineGroup)` on the assoc-list model of the JS `Map`:
replace the value at a SameValueZero-equal key (keeping its position, as a JS
`Map` does), else append. -/
def mapSet (m : List (JSNum × LineGroup)) (k : JSNum) (v : LineGroup) :
    List (JSNum × LineGroup) :=
  if m.any (fun p => JSNum.svz p.1 k) then
    m.map (fun p => if JSNum.svz p.1 k then (p.1, v) else p)
  else m ++ [(k, v)]

/-- `const height = item.height || 12`. -/
def itemHeight (item : PdfItem) : JSNum :=
  if JSNum.jTruthy item.height then item.height else JSNum.fin 12

/-- The object `lineGroup.items.push({...})` pushes:
`{ str, x, width: item.width || 0, height, fontName }`. -/
def mkLineItem (item : PdfItem) : LineItem :=
  { str := item.str, x := item.transform4
    width := if JSNum.jTruthy item.width then item.width else JSNum.fin 0
    height := itemHeight item, fontName := item.fontName }

open JSNum in
/-- The loop body of `groupTextByPosition` for one `item`: skip empty or
whitespace-only text; round `y` to one decimal; find a group within
`yThreshold` of `y` or start a new one keyed by `y`; push the item and raise
the group's `avgFontSize` to the maximum height seen. -/
def groupStep (m : List (JSNum × LineGroup)) (item : PdfItem) :
    List (JSNum × LineGroup) :=
  if item.str = [] || trimJs item.str = [] then m
  else
    let y := roundY item.transform5
    let height := itemHeight item
    let li := mkLineItem item
    let hit : JSNum × LineGroup → Bool := fun p =>
      jltB (jabs (jsub p.2.y y)) yThreshold
    let push : LineGroup → LineGroup := fun g =>
      { g with items := g.items ++ [li], avgFontSize := jmax g.avgFontSize height }
    if (m.find? hit).isSome then
      updateFirst hit (fun p => (p.1, push p.2)) m
    else
      mapSet m y (push { y := y, items := [], avgFontSize := height })

/-- `groupTextByPosition(items, pageWidth)`: cluster the items, then return
`Array.from(lineGroups.values()).sort((a, b) => b.y - a.y)`.  (`pageWidth`
is a parameter of the source function but is never read.) -/
def groupTextByPosition (items : List PdfItem) (pageWidth : ℚ) : List LineGroup :=
  let _ := pageWidth
  sortJS (fun a b => !JSNum.jgtB (JSNum.jsub b.y a.y) (JSNum.fin 0))
    ((items.foldl groupStep []).map Prod.snd)

/-- A run pushed by `analyzeLineGroup`: either the bare `{ text: ' ' }`
space run, or a fully styled run. -/
inductive Run where
  | space : Run
  | styled (text : List Char) (bold italic : Bool) (size : JSNum)
      (font : List Char) : Run
deriving DecidableEq, Repr

/-- The `type` field of an analyzed line. -/
inductive ParaType where
  | heading1 | heading2 | body | caption | list
deriving DecidableEq, Repr

/-- The `alignment` field (the source's type lists `justify` but the value
is never assigned). -/
inductive TextAlign where
  | left | center | right | justify
deriving DecidableEq, Repr

/-- `item.fontName?.toLowerCase().includes('bold') ?? false`. -/
def isBoldName (fontName : Option (List Char)) : Bool :=
  (fontName.map (fun n => includesJs (toLowerJs n) "bold".toList)).getD false

/-- `item.fontName?.toLowerCase().includes('italic') ?? false`. -/
def isItalicName (fontName : Option (List Char)) : Bool :=
  (fontName.map (fun n => includesJs (toLowerJs n) "italic".toList)).getD false

open JSNum in
/-- The run-building loop of `analyzeLineGroup`, recast with the previous
item (`items[i - 1]`, `none` when `i = 0`) as an argument.  Returns
`(runs, fullText, hasBold, hasItalic)`. -/
def buildRuns : Option LineItem → List LineItem → List Run × List Char × Bool × Bool
  | _, [] => ([], [], false, false)
  | prev, item :: rest =>
    let spacePart : List Run × List Char :=
      match prev with
      | some p =>
        if jgtB (jsub item.x (jadd p.x p.width)) (fin 2) then ([Run.space], [' '])
        else ([], [])
      | none => ([], [])
    let isBold := isBoldName item.fontName
    let isItalic := isItalicName item.fontName
    let r := Run.styled item.str isBold isItalic (jround (jmul item.height (fin 2)))
      (sanitizeFont item.fontName)
    let rec' := buildRuns (some item) rest
    (spacePart.1 ++ r :: rec'.1, spacePart.2 ++ item.str ++ rec'.2.1,
     isBold || rec'.2.2.1, isItalic || rec'.2.2.2)

open JSNum in
/-- `avgX > pageWidth * 0.35 && avgX < pageWidth * 0.65`. -/
def isCenteredB (avgX : JSNum) (pageWidth : ℚ) : Bool :=
  jgtB avgX (fin (pageWidth * (35/100))) && jltB avgX (fin (pageWidth * (65/100)))

open JSNum in
/-- `avgX > pageWidth * 0.65`. -/
def isRightAlignedB (avgX : JSNum) (pageWidth : ℚ) : Bool :=
  jgtB avgX (fin (pageWidth * (65/100)))

/-- The alignment assignment sequence of `analyzeLineGroup`:
start at `'left'`, overwrite with `'center'` if `isCentered`, then with
`'right'` if `isRightAligned`. -/
def inferAlignment (avgX : JSNum) (pageWidth : ℚ) : TextAlign :=
  let a := TextAlign.left
  let a := if isCenteredB avgX pageWidth then TextAlign.center else a
  let a := if isRightAlignedB avgX pageWidth then TextAlign.right else a
  a

/-- `fullText.match(/^[\sâ€¢\-\*]\s+/)` as a Boolean: the
text starts with a whitespace / bullet-mojibake / dash / asterisk character
followed by at least one whitespace character.  (The source file stores the
bullet `U+2022` mis-decoded as the three characters `U+00E2 U+20AC U+00A2`.) -/
def matchesListPattern : List Char → Bool
  | c0 :: c1 :: _ =>
    (isJsWs c0 || c0 = 'â' || c0 = '€' || c0 = '¢' ||
     c0 = '-' || c0 = '*') && isJsWs c1
  | _ => false

/-- The analyzed-line record returned by `analyzeLineGroup`. -/
structure PageElement where
  type : ParaType
  text : List Char
  runs : List Run
  alignment : TextAlign
  fontSize : JSNum
  isLarge : Bool
  isBold : Bool
  isItalic : Bool
deriving DecidableEq, Repr

open JSNum in
/-- `analyzeLineGroup(lineGroup, pageWidth)` (src/src/lib/pdfTools.ts,
lines 724–797).  In the source, `isSmall || (isSmall && isItalic)` reads an
out-of-scope `isItalic`, but short-circuiting means it is never evaluated;
the expression is equivalent to `isSmall` and is rendered with the loop's
aggregate flag here. -/
def analyzeLineGroup (lineGroup : LineGroup) (pageWidth : ℚ) : Option PageElement :=
  let items := sortJS (fun a b => !jgtB (jsub a.x b.x) (fin 0)) lineGroup.items
  let built := buildRuns none items
  let runs := built.1
  let fullText := built.2.1
  let hasBold := built.2.2.1
  let hasItalic := built.2.2.2
  if trimJs fullText = [] then none
  else
    let fontSize := lineGroup.avgFontSize
    let isLarge := jgtB fontSize (fin 14)
    let isVeryLarge := jgtB fontSize (fin 18)
    let isSmall := jltB fontSize (fin 10)
    let avgX := jdiv (items.foldl (fun sum item => jadd sum item.x) (fin 0))
      (fin items.length)
    let isCentered := isCenteredB avgX pageWidth
    let alignment := inferAlignment avgX pageWidth
    let type :=
      if isVeryLarge && (isCentered || hasBold) then ParaType.heading1
      else if isLarge && (hasBold || isCentered) then ParaType.heading2
      else if isSmall || (isSmall && hasItalic) then ParaType.caption
      else if matchesListPattern fullText then ParaType.list
      else ParaType.body
    some
      { type := type, text := trimJs fullText, runs := runs
        alignment := alignment, fontSize := fontSize, isLarge := isLarge
        isBold := hasBold, isItalic := hasItalic }

/-- One page's `pageElements`:
`groupTextByPosition(...).map(g => analyzeLineGroup(g, width)).filter(el => el !== null)`. -/
def pageElements (items : List PdfItem) (pageWidth : ℚ) : List PageElement :=
  ((groupTextByPosition items pageWidth).map
    (fun g => analyzeLineGroup g pageWidth)).filterMap id

/-! ### The line-merging variant
(node fallback bundled with src/scripts/Convert-PdfToWord-Office.ps1,
`convertPdfToWord`, lines 88–272 of that file) -/

/-- An item of an office-variant line group:
`{ text, x, width, fontSize }`. -/
structure OItem where
  text : List Char
  x : ℚ
  width : ℚ
  fontSize : ℚ
deriving DecidableEq, Repr

/-- An office-variant line group: `{ y, items, fontSize }` with `y` rounded
to an integer (`Math.round(item.transform[5])`). -/
structure OLine where
  y : ℤ
  items : List OItem
  fontSize : ℚ
deriving DecidableEq, Repr

/-- A paragraph as pushed by the line-merging variant.  `textLines` records
the `currentParagraph` array the paragraph was flushed from; `text` is its
`join(' ')`, the string handed to the single `TextRun`. -/
structure OPara where
  textLines : List (List Char)
  text : List Char
  heading : Option ℕ
  line : ℕ
  before : ℕ
  after : ℕ
  center : Bool
deriving DecidableEq, Repr

/-- `currentParagraph.join(' ')`. -/
def joinSpace (cur : List (List Char)) : List Char :=
  List.intercalate [' '] cur

/-- The line-text loop: walk the x-sorted items, prepending a space when the
gap `item.x - (lastX + items[idx-1].width)` exceeds 3 (`lastX` is the
previous item's `x`). -/
def oLineTextAux : Option OItem → List OItem → List Char
  | _, [] => []
  | prev, item :: rest =>
    let sp : List Char :=
      match prev with
      | some p => if (3 : ℚ) < item.x - (p.x + p.width) then [' '] else []
      | none => []
    sp ++ item.text ++ oLineTextAux (some item) rest

/-- A line's assembled, trimmed text: sort items left-to-right
(`(a, b) => a.x - b.x`), build the text, `trim()`. -/
def oLineText (g : OLine) : List Char :=
  trimJs (oLineTextAux none (sortJS (fun a b => decide (a.x ≤ b.x)) g.items))

/-- The `startNewParagraph` decision (lines 186–202): with no previous line
it is `true`; otherwise `yGap > fontSize * 1.5`, or the previous font size is
truthy and differs by more than 3, or the current line's text is shorter than
50 characters. -/
def oStartNew (prev : Option (ℤ × ℚ)) (g : OLine) (t : List Char) : Bool :=
  match prev with
  | none => true
  | some (py, pfs) =>
    decide (((py - g.y : ℤ) : ℚ) > g.fontSize * (3/2)) ||
    (decide (pfs ≠ 0) && decide (|g.fontSize - pfs| > 3)) ||
    decide (t.length < 50)

/-- The mid-page paragraph flush (lines 205–233): heading level and spacing
from the first line's font size, center alignment from the first line's
average `x` and the paragraph text length.  `firstLine` is
`lineGroups[idx - currentParagraph.length]`; when it is absent the source
would fault on `firstLine.items`, so the (unreachable) `none` branch of the
average is rendered as 0. -/
def flushPara (gs : List OLine) (W : ℚ) (idx : ℕ) (cur : List (List Char)) :
    OPara :=
  let paragraphText := joinSpace cur
  let firstLine := gs.get? (idx - cur.length)
  let fontSize : ℚ := (firstLine.map OLine.fontSize).getD 12
  let hba : Option ℕ × ℕ × ℕ :=
    if fontSize > 16 then (some 1, 240, 120)
    else if fontSize > 14 then (some 2, 200, 120)
    else (none, 120, 120)
  let avgX : ℚ :=
    match firstLine with
    | some f => (f.items.foldl (fun s it => s + it.x) 0) / (f.items.length : ℚ)
    | none => 0
  let center :=
    decide (avgX > W * (3/10)) && decide (avgX < W * (7/10)) &&
    decide (paragraphText.length < 80)
  { textLines := cur, text := paragraphText, heading := hba.1, line := 360
    before := hba.2.1, after := hba.2.2, center := center }

/-- The end-of-page flush (lines 242–250): a plain paragraph with default
spacing, no heading, no alignment. -/
def plainPara (cur : List (List Char)) : OPara :=
  { textLines := cur, text := joinSpace cur, heading := none, line := 360
    before := 120, after := 120, center := false }

/-- The paragraph-assembly loop over the sorted line groups.  `idx` tracks
the position of the current group inside the full list `gs`
(`lineGroups.indexOf(lineGroup)`); `cur` is `currentParagraph`; `prev` is
`(prevY, prevFontSize)`, `none` before the first kept line. -/
def oLoop (gs : List OLine) (W : ℚ) :
    ℕ → List OLine → List (List Char) → Option (ℤ × ℚ) → List OPara
  | _, [], cur, _ => if cur = [] then [] else [plainPara cur]
  | idx, g :: rest, cur, prev =>
    let t := oLineText g
    if t = [] then oLoop gs W (idx + 1) rest cur prev
    else if oStartNew prev g t && !(cur = []) then
      flushPara gs W idx cur ::
        oLoop gs W (idx + 1) rest [t] (some (g.y, g.fontSize))
    else
      oLoop gs W (idx + 1) rest (cur ++ [t]) (some (g.y, g.fontSize))

/-- One page of the line-merging variant, from its sorted line groups to its
paragraph sequence. -/
def officeParagraphs (gs : List OLine) (W : ℚ) : List OPara :=
  oLoop gs W 0 gs [] none

/-! ### Derived notions and concrete inputs used by the claims -/

/-- Whether a run is a styled (non-space) run. -/
def isStyledRun : Run → Bool
  | Run.space => false
  | Run.styled _ _ _ _ _ => true

/-- Number of styled (non-space) runs. -/
def countStyledRuns (runs : List Run) : ℕ :=
  (runs.filter isStyledRun).length

/-- Rank of an alignment in the claimed Left → Center → Right order
(`justify` is never produced by the engine). -/
def alignRank : TextAlign → ℕ
  | TextAlign.left => 0
  | TextAlign.center => 1
  | TextAlign.right => 2
  | TextAlign.justify => 0

/-- Rounding to one decimal place on rationals, the finite case of
`roundY`. -/
def roundTenth (q : ℚ) : ℚ := ((⌊q * 10 + 1/2⌋ : ℤ) : ℚ) / 10

/-- Whether two fragment texts land in one line of the clustering output. -/
def sameLineIn (items : List PdfItem) (W : ℚ) (s1 s2 : List Char) : Bool :=
  (groupTextByPosition items W).any fun g =>
    (g.items.any fun li => li.str = s1) && (g.items.any fun li => li.str = s2)

/-- A text-only fragment at `(x, y)` with width 0, height 12 and no
font name. -/
def simpleItem (s : List Char) (x y : ℚ) : PdfItem :=
  { str := s, transform4 := JSNum.fin x, transform5 := JSNum.fin y
    width := JSNum.fin 0, height := JSNum.fin 12, fontName := none }

/-- A fragment whose vertical position is NaN. -/
def nanItem (s : List Char) : PdfItem :=
  { str := s, transform4 := JSNum.fin 0, transform5 := JSNum.nan
    width := JSNum.fin 0, height := JSNum.fin 12, fontName := none }

/-- Scenario A of the spec: three same-style fragments at
`y = 700, 699.8, 700.2`, average `x = 250`, on a 600-unit-wide page; widths
chosen so that no inter-fragment gap exceeds 2. -/
def scenarioAItems : List PdfItem :=
  [simpleItem "one".toList 240 700,
   simpleItem "two".toList 250 (6998/10),
   simpleItem "three".toList 260 (7002/10)]

/-- The fragments `simpleItem` builds have width 0; give Scenario A's items
the widths 10 so the x-gaps are exactly 0. -/
def scenarioAItemsW : List PdfItem :=
  scenarioAItems.map fun it => { it with width := JSNum.fin 10 }

/-- The line group Scenario A's fragments cluster into (used to exercise the
run assembler directly). -/
def scenarioAGroup : LineGroup :=
  { y := JSNum.fin 700
    items :=
      [{ str := "one".toList, x := JSNum.fin 240, width := JSNum.fin 10
         height := JSNum.fin 12, fontName := none },
       { str := "two".toList, x := JSNum.fin 250, width := JSNum.fin 10
         height := JSNum.fin 12, fontName := none },
       { str := "three".toList, x := JSNum.fin 260, width := JSNum.fin 10
         height := JSNum.fin 12, fontName := none }]
    avgFontSize := JSNum.fin 12 }

/-- A dummy element for total extraction from `Option PageElement`. -/
def emptyElement : PageElement :=
  { type := ParaType.body, text := [], runs := [], alignment := TextAlign.left
    fontSize := JSNum.fin 0, isLarge := false, isBold := false
    isItalic := false }

/-- The element Scenario A produces: one Center-aligned Body paragraph whose
run list has one styled run per fragment. -/
def scenarioAElement : PageElement :=
  { type := ParaType.body
    text := "onetwothree".toList
    runs :=
      [Run.styled "one".toList false false (JSNum.fin 24) "Calibri".toList,
       Run.styled "two".toList false false (JSNum.fin 24) "Calibri".toList,
       Run.styled "three".toList false false (JSNum.fin 24) "Calibri".toList]
    alignment := TextAlign.center, fontSize := JSNum.fin 12, isLarge := false
    isBold := false, isItalic := false }

/-- An office-variant line whose single item carries the given text. -/
def simpleOLine (y : ℤ) (fs : ℚ) (t : List Char) : OLine :=
  { y := y, items := [{ text := t, x := 0, width := 0, fontSize := fs }]
    fontSize := fs }

/-- Modelled from the spec: the paragraph-boundary condition as claim C5
states it — vertical gap above 1.5× the current line's font size, font-size
change above 3 points, or the PRECEDING line's assembled text shorter than
50 characters. -/
def specC5NewParagraph (prev : OLine) (prevText : List Char) (g : OLine) :
    Prop :=
  ((prev.y - g.y : ℤ) : ℚ) > g.fontSize * (3/2) ∨
  |g.fontSize - prev.fontSize| > 3 ∨
  prevText.length < 50

instance (prev : OLine) (prevText : List Char) (g : OLine) :
    Decidable (specC5NewParagraph prev prevText g) := by
  unfold specC5NewParagraph; infer_instance

/-- A 60-character line followed by a 10-character line, same font size,
small vertical gap: the claimed (preceding-line) 50-character rule fires on
neither, the code's (current-line) rule fires on the second. -/
def c5LineA : OLine := simpleOLine 100 12 (List.replicate 60 'a')

/-- See `c5LineA`. -/
def c5LineB : OLine := simpleOLine 90 12 (List.replicate 10 'b')

/-- A single large-font line positioned mid-page: its paragraph is flushed
only at end of page. -/
def c9Line : OLine :=
  { y := 700
    items := [{ text := "Title".toList, x := 300, width := 0, fontSize := 22 }]
    fontSize := 22 }


/-! ## Helper lemmas -/

theorem insertJS_perm {α : Type} (lt : α → α → Bool) (a : α) (l : List α) :
    List.Perm (insertJS lt a l) (a :: l) := by
  induction l with
  | nil => rfl
  | cons b bs ih =>
    simp only [insertJS]
    split
    · rfl
    · exact (ih.cons b).trans (List.Perm.swap a b bs)

theorem sortJS_perm {α : Type} (lt : α → α → Bool) (l : List α) :
    List.Perm (sortJS lt l) l := by
  induction l with
  | nil => rfl
  | cons a as ih => exact (insertJS_perm lt a (sortJS lt as)).trans (ih.cons a)

theorem sortJS_length {α : Type} (lt : α → α → Bool) (l : List α) :
    (sortJS lt l).length = l.length :=
  (sortJS_perm lt l).length_eq

theorem sortJS_mem {α : Type} (lt : α → α → Bool) (l : List α) (a : α) :
    a ∈ sortJS lt l ↔ a ∈ l :=
  (sortJS_perm lt l).mem_iff

/-! ## C4 — the Font Normalizer -/

/-- C4 (amended): `sanitizeFont` is a total function and its result is
either one of the portable families of its fixed map, or the sanitized
input name itself (the fallback of the unmatched case). -/
theorem sanitizeFont_total_or_sanitized (fontName : Option (List Char)) :
    sanitizeFont fontName ∈ fontMap.map Prod.snd ∨
    sanitizeFont fontName = sanitizeFontName (fontName.getD []) := by
  cases fontName with
  | none => left; decide
  | some name =>
    by_cases h : name = []
    · left
      simp only [sanitizeFont, h, if_pos rfl]
      decide
    · simp only [sanitizeFont, if_neg h, Option.getD_some]
      cases hf : fontMap.find? fun kv =>
          includesJs (toLowerJs (sanitizeFontName name)) (toLowerJs kv.1) with
      | some kv =>
        left
        exact List.mem_map_of_mem Prod.snd (List.mem_of_find?_eq_some hf)
      | none =>
        by_cases hs : sanitizeFontName name = []
        · left
          simp only [if_pos hs]
          decide
        · right
          simp only [if_neg hs]

/-- C4 counterexample: on the input `"Zzz"` the Font Normalizer returns the
sanitized input name `"Zzz"`, which is not a member of its fixed family
set — the fallback path returns arbitrary strings, not fixed families. -/
theorem sanitizeFont_escapes_fixed_set :
    sanitizeFont (some "Zzz".toList) = "Zzz".toList ∧
    "Zzz".toList ∉ fontMap.map Prod.snd := by
  decide

/-! ## C6 — alignment monotonicity -/

/-- C6 (amended): alignment inference is monotone Left → Center → Right in
the first-line average `x`, except at the exact boundary `avgX = 0.65·W`,
where the inferred alignment drops back to Left (`avgX > 0.65W` is strict
and `avgX < 0.65W` fails there). -/
theorem inferAlignment_monotone_off_boundary (W x1 x2 : ℚ) (_hW : 0 < W)
    (h12 : x1 ≤ x2) (hb : x2 ≠ W * (65/100)) :
    alignRank (inferAlignment (JSNum.fin x1) W) ≤
      alignRank (inferAlignment (JSNum.fin x2) W) := by
  rcases lt_or_gt_of_ne hb with hlt | hgt <;>
    · simp only [inferAlignment, isCenteredB, isRightAlignedB, JSNum.jgtB,
        JSNum.jltB, Bool.and_eq_true, decide_eq_true_eq]
      split_ifs <;> simp_all [alignRank] <;> linarith

/-- Witness for `inferAlignment_monotone_off_boundary` at
`W = 100`, `x1 = 30`, `x2 = 50`. -/
theorem inferAlignment_monotone_off_boundary_witness :
    (0 : ℚ) < 100 ∧ (30 : ℚ) ≤ 50 ∧ (50 : ℚ) ≠ 100 * (65/100) ∧
    alignRank (inferAlignment (JSNum.fin 30) 100) ≤
      alignRank (inferAlignment (JSNum.fin 50) 100) :=
  ⟨by norm_num, by norm_num, by norm_num,
    inferAlignment_monotone_off_boundary 100 30 50 (by norm_num) (by norm_num)
      (by norm_num)⟩

/-- C6 counterexample: on a 100-unit page, increasing the average `x` from
50 (Center) to exactly 65 = 0.65·W yields Left — a backward step in the
claimed Left → Center → Right order for a monotone increase of `x`. -/
theorem inferAlignment_steps_backward :
    (50 : ℚ) ≤ 65 ∧
    inferAlignment (JSNum.fin 50) 100 = TextAlign.center ∧
    inferAlignment (JSNum.fin 65) 100 = TextAlign.left := by
  refine ⟨by norm_num, ?_, ?_⟩ <;>
    · simp only [inferAlignment, isCenteredB, isRightAlignedB, JSNum.jgtB,
        JSNum.jltB, Bool.and_eq_true, decide_eq_true_eq]
      norm_num

/-! ## Evaluation lemmas for `JSNum` operations on finite values -/

namespace JSNum

@[simp] theorem jsub_fin (a b : ℚ) : jsub (fin a) (fin b) = fin (a - b) := rfl

@[simp] theorem jadd_fin (a b : ℚ) : jadd (fin a) (fin b) = fin (a + b) := rfl

@[simp] theorem jmul_fin (a b : ℚ) : jmul (fin a) (fin b) = fin (a * b) := rfl

@[simp] theorem jabs_fin (a : ℚ) : jabs (fin a) = fin |a| := rfl

@[simp] theorem jmax_fin (a b : ℚ) : jmax (fin a) (fin b) = fin (max a b) := rfl

@[simp] theorem jround_fin (a : ℚ) : jround (fin a) = fin (⌊a + 1/2⌋ : ℤ) := rfl

@[simp] theorem jltB_fin (a b : ℚ) : jltB (fin a) (fin b) = decide (a < b) := rfl

@[simp] theorem jgtB_fin (a b : ℚ) : jgtB (fin a) (fin b) = decide (b < a) := rfl

@[simp] theorem jTruthy_fin (a : ℚ) : jTruthy (fin a) = decide (a ≠ 0) := rfl

@[simp] theorem svz_fin (a b : ℚ) : svz (fin a) (fin b) = decide (a = b) := rfl

@[simp] theorem jdiv_fin_of_ne (a b : ℚ) (hb : b ≠ 0) :
    jdiv (fin a) (fin b) = fin (a / b) := by
  simp [jdiv, hb]

theorem jmax_comm (a b : JSNum) : jmax a b = jmax b a := by
  cases a <;> cases b <;> simp [jmax, max_comm]

theorem jmax_self (a : JSNum) : jmax a a = a := by
  cases a <;> simp [jmax]

end JSNum

/-! ## C3 — the run assembler -/

theorem countStyledRuns_append (a b : List Run) :
    countStyledRuns (a ++ b) = countStyledRuns a + countStyledRuns b := by
  simp [countStyledRuns, List.filter_append]

theorem buildRuns_styled_count (items : List LineItem) :
    ∀ prev, countStyledRuns (buildRuns prev items).1 = items.length := by
  induction items with
  | nil => intro prev; rfl
  | cons item rest ih =>
    intro prev
    cases prev with
    | none =>
      simpa [buildRuns, countStyledRuns, isStyledRun] using ih (some item)
    | some p =>
      by_cases hgap :
          JSNum.jgtB (JSNum.jsub item.x (JSNum.jadd p.x p.width)) (JSNum.fin 2) = true
      · simpa [buildRuns, hgap, countStyledRuns, isStyledRun, List.filter_append]
          using ih (some item)
      · simpa [buildRuns, hgap, countStyledRuns, isStyledRun] using ih (some item)

/-- C3 (amended): the run assembler emits exactly one styled run per
fragment of the line — consecutive fragments with identical style
classification are NOT coalesced (space runs may be interleaved when the
horizontal gap exceeds 2). -/
theorem analyzeLineGroup_run_per_fragment (g : LineGroup) (W : ℚ)
    (el : PageElement) (h : analyzeLineGroup g W = some el) :
    countStyledRuns el.runs = g.items.length := by
  simp only [analyzeLineGroup] at h
  split at h
  · exact absurd h (by simp)
  · obtain rfl := (Option.some.inj h).symm
    simpa [buildRuns_styled_count] using sortJS_length
      (fun a b : LineItem => !JSNum.jgtB (JSNum.jsub a.x b.x) (JSNum.fin 0)) g.items

theorem scenarioA_eval :
    analyzeLineGroup scenarioAGroup 600 = some scenarioAElement := by
  norm_num +decide [analyzeLineGroup, scenarioAGroup, scenarioAElement, sortJS,
    insertJS, buildRuns, isBoldName, isItalicName, isCenteredB,
    isRightAlignedB, inferAlignment, decide_eq_true_eq]

theorem scenarioA_pipeline_eval :
    pageElements scenarioAItemsW 600 = [scenarioAElement] := by
  norm_num +decide [pageElements, groupTextByPosition, groupStep, mkLineItem,
    itemHeight, scenarioAItemsW, scenarioAItems, simpleItem, roundY, mapSet, updateFirst,
    yThreshold, sortJS, insertJS, analyzeLineGroup, buildRuns, isBoldName,
    isItalicName, isCenteredB, isRightAlignedB, inferAlignment,
    scenarioAElement, decide_eq_true_eq, abs_of_nonneg, abs_of_neg]

/-- Witness for `analyzeLineGroup_run_per_fragment` at Scenario A. -/
theorem analyzeLineGroup_run_per_fragment_witness :
    countStyledRuns scenarioAElement.runs = scenarioAGroup.items.length :=
  analyzeLineGroup_run_per_fragment scenarioAGroup 600 scenarioAElement
    scenarioA_eval

/-- C3 counterexample: Scenario A — three same-style fragments clustered
into one line of a 600-unit page — produces one Center-aligned Body
paragraph whose run list holds THREE styled runs of identical style, not
one: the run assembler never coalesces consecutive same-style fragments. -/
theorem scenarioA_runs_not_coalesced :
    pageElements scenarioAItemsW 600 = [scenarioAElement] ∧
    scenarioAElement.runs =
      [Run.styled "one".toList false false (JSNum.fin 24) "Calibri".toList,
       Run.styled "two".toList false false (JSNum.fin 24) "Calibri".toList,
       Run.styled "three".toList false false (JSNum.fin 24) "Calibri".toList] ∧
    scenarioAElement.runs.length ≠ 1 :=
  ⟨scenarioA_pipeline_eval, by decide, by decide⟩

/-! ## C5 — when a new paragraph starts (line-merging variant) -/

theorem oStartNew_none (g : OLine) (t : List Char) : oStartNew none g t = true :=
  rfl

/-- C5 (amended): for two consecutive non-empty lines, the second starts a
new paragraph exactly when the vertical gap exceeds 1.5× the current line's
font size, or the preceding line's font size is nonzero (truthy) and the
font size changes by more than 3 points, or the CURRENT line's assembled
text is shorter than 50 characters; otherwise the current line is appended
to the paragraph in progress. -/
theorem officeParagraphs_pair_boundary (g1 g2 : OLine) (W : ℚ)
    (h1 : oLineText g1 ≠ []) (h2 : oLineText g2 ≠ []) :
    (officeParagraphs [g1, g2] W).map OPara.textLines =
      if ((g1.y - g2.y : ℤ) : ℚ) > g2.fontSize * (3/2) ∨
         (g1.fontSize ≠ 0 ∧ |g2.fontSize - g1.fontSize| > 3) ∨
         (oLineText g2).length < 50
      then [[oLineText g1], [oLineText g2]]
      else [[oLineText g1, oLineText g2]] := by
  have hiff : (((g1.y - g2.y : ℤ) : ℚ) > g2.fontSize * (3/2) ∨
      (g1.fontSize ≠ 0 ∧ |g2.fontSize - g1.fontSize| > 3) ∨
      (oLineText g2).length < 50) ↔
      oStartNew (some (g1.y, g1.fontSize)) g2 (oLineText g2) = true := by
    simp [oStartNew, Bool.or_eq_true, Bool.and_eq_true, decide_eq_true_eq,
      or_assoc]
  rw [if_congr hiff rfl rfl]
  cases hB : oStartNew (some (g1.y, g1.fontSize)) g2 (oLineText g2) with
  | false =>
    simp [officeParagraphs, oLoop, h1, h2, hB, oStartNew_none, flushPara,
      plainPara]
  | true =>
    simp [officeParagraphs, oLoop, h1, h2, hB, oStartNew_none, flushPara,
      plainPara]

/-- Witness for `officeParagraphs_pair_boundary` at the concrete line pair
`c5LineA`, `c5LineB`. -/
theorem officeParagraphs_pair_boundary_witness :
    oLineText c5LineA ≠ [] ∧ oLineText c5LineB ≠ [] ∧
    (officeParagraphs [c5LineA, c5LineB] 600).map OPara.textLines =
      (if ((c5LineA.y - c5LineB.y : ℤ) : ℚ) > c5LineB.fontSize * (3/2) ∨
          (c5LineA.fontSize ≠ 0 ∧ |c5LineB.fontSize - c5LineA.fontSize| > 3) ∨
          (oLineText c5LineB).length < 50
       then [[oLineText c5LineA], [oLineText c5LineB]]
       else [[oLineText c5LineA, oLineText c5LineB]]) :=
  ⟨by decide, by decide,
    officeParagraphs_pair_boundary c5LineA c5LineB 600 (by decide) (by decide)⟩

/-- C5 counterexample: a 60-character line followed by a 10-character line
with identical font size and a small vertical gap.  None of the claim's
conditions holds (in particular the PRECEDING line's text has 60 ≥ 50
characters), so the claim predicts one merged paragraph — but the code
tests the CURRENT line's length (10 < 50) and starts a new paragraph,
emitting two. -/
theorem c5_short_current_line_splits :
    ¬ specC5NewParagraph c5LineA (oLineText c5LineA) c5LineB ∧
    (officeParagraphs [c5LineA, c5LineB] 600).map OPara.textLines =
      [[oLineText c5LineA], [oLineText c5LineB]] := by
  constructor
  · norm_num +decide [specC5NewParagraph, c5LineA, c5LineB, simpleOLine,
      oLineText, oLineTextAux, sortJS, insertJS, trimJs]
  · norm_num +decide [officeParagraphs, oLoop, oStartNew, flushPara,
      plainPara, joinSpace, c5LineA, c5LineB, simpleOLine, oLineText,
      oLineTextAux, sortJS, insertJS, abs_of_nonneg, abs_of_neg]

/-! ## C9 — the end-of-page flush -/

theorem getLast?_cons_of_some {α : Type} (x : α) (l : List α) (c : α)
    (h : l.getLast? = some c) : (x :: l).getLast? = some c := by
  cases l with
  | nil => simp at h
  | cons y ys => simpa [List.getLast?_cons_cons] using h

theorem oLoop_getLast_plain (gs : List OLine) (W : ℚ) (l : List OLine) :
    ∀ idx cur prev, (cur ≠ [] ∨ ∃ g ∈ l, oLineText g ≠ []) →
      ∃ c, (oLoop gs W idx l cur prev).getLast? = some (plainPara c) := by
  induction l with
  | nil =>
    intro idx cur prev h
    rcases h with hc | ⟨g, hg, _⟩
    · exact ⟨cur, by simp [oLoop, hc]⟩
    · cases hg
  | cons g rest ih =>
    intro idx cur prev h
    by_cases ht : oLineText g = []
    · refine Exists.imp (fun c hc => ?_) (ih (idx + 1) cur prev ?_)
      · simpa [oLoop, ht] using hc
      · rcases h with hc | ⟨g', hg', ht'⟩
        · exact Or.inl hc
        · rcases List.mem_cons.mp hg' with rfl | hmem
          · exact absurd ht ht'
          · exact Or.inr ⟨g', hmem, ht'⟩
    · by_cases hs :
          (oStartNew prev g (oLineText g) && !decide (cur = [])) = true
      · obtain ⟨c, hlast⟩ := ih (idx + 1) [oLineText g]
          (some (g.y, g.fontSize)) (Or.inl (by simp))
        refine ⟨c, ?_⟩
        have : oLoop gs W idx (g :: rest) cur prev =
            flushPara gs W idx cur ::
              oLoop gs W (idx + 1) rest [oLineText g]
                (some (g.y, g.fontSize)) := by
          simp [oLoop, ht, hs]
        rw [this]
        exact getLast?_cons_of_some _ _ _ hlast
      · obtain ⟨c, hlast⟩ := ih (idx + 1) (cur ++ [oLineText g])
          (some (g.y, g.fontSize)) (Or.inl (by simp))
        refine ⟨c, ?_⟩
        have : oLoop gs W idx (g :: rest) cur prev =
            oLoop gs W (idx + 1) rest (cur ++ [oLineText g])
              (some (g.y, g.fontSize)) := by
          simp only [oLoop, if_neg ht]
          rw [if_neg (by simpa using hs)]
        rw [this]
        exact hlast

/-- C9 (confirmed): whenever a page has at least one non-empty line, the
last emitted paragraph is the end-of-page flush: a plain paragraph with no
heading level, no center alignment and the default spacing
`{line: 360, before: 120, after: 120}` — regardless of its first line's
font size or horizontal position. -/
theorem officeParagraphs_final_flush_plain (gs : List OLine) (W : ℚ)
    (h : ∃ g ∈ gs, oLineText g ≠ []) :
    ∃ p, (officeParagraphs gs W).getLast? = some p ∧ p.heading = none ∧
      p.center = false ∧ p.line = 360 ∧ p.before = 120 ∧ p.after = 120 := by
  obtain ⟨c, hlast⟩ := oLoop_getLast_plain gs W gs 0 [] none (Or.inr h)
  exact ⟨plainPara c, hlast, rfl, rfl, rfl, rfl, rfl⟩

/-- Witness for `officeParagraphs_final_flush_plain` at a page whose only
line has font size 22 and sits mid-page — mid-page flushing would have made
it a centered Heading 1, the final flush keeps it plain. -/
theorem officeParagraphs_final_flush_plain_witness :
    ∃ p, (officeParagraphs [c9Line] 600).getLast? = some p ∧
      p.heading = none ∧ p.center = false ∧ p.line = 360 ∧ p.before = 120 ∧
      p.after = 120 :=
  officeParagraphs_final_flush_plain [c9Line] 600 (by decide)

/-! ## C7 — non-finite fragments -/

namespace JSNum

@[simp] theorem jsub_nan_right (a : JSNum) : jsub a nan = nan := by
  cases a <;> rfl

@[simp] theorem jsub_nan_left (a : JSNum) : jsub nan a = nan := by
  cases a <;> rfl

@[simp] theorem jabs_nan : jabs nan = nan := rfl

@[simp] theorem jltB_nan_left (a : JSNum) : jltB nan a = false := by
  cases a <;> rfl

@[simp] theorem jltB_nan_right (a : JSNum) : jltB a nan = false := by
  cases a <;> rfl

@[simp] theorem svz_nan_nan : svz nan nan = true := rfl

@[simp] theorem jTruthy_nan : jTruthy nan = false := rfl

@[simp] theorem roundY_nan : roundY nan = nan := rfl

end JSNum

/-- C7 (amended): the engine has no `MalformedFragment` condition and drops
nothing for non-finiteness.  A fragment whose rounded `y` is NaN never
matches an existing line (every NaN comparison is false) and starts its own
line, which IS kept in the output; and when a second NaN-anchored fragment
arrives, its `Map.set` collides with the first one's NaN key (SameValueZero)
and silently REPLACES that line, losing the first fragment.  Conversion is
never aborted in either case. -/
theorem groupTextByPosition_nan_kept (f1 f2 : PdfItem) (W : ℚ)
    (h1y : roundY f1.transform5 = JSNum.nan)
    (h2y : roundY f2.transform5 = JSNum.nan)
    (h1t : trimJs f1.str ≠ []) (h2t : trimJs f2.str ≠ []) :
    (groupTextByPosition [f1] W).map (fun g => g.items.map LineItem.str) =
      [[f1.str]] ∧
    (groupTextByPosition [f1, f2] W).map (fun g => g.items.map LineItem.str) =
      [[f2.str]] := by
  have h1s : f1.str ≠ [] := fun h => h1t (by simp [h, trimJs])
  have h2s : f2.str ≠ [] := fun h => h2t (by simp [h, trimJs])
  constructor
  · simp [groupTextByPosition, groupStep, mkLineItem, itemHeight, h1y, h1t,
      h1s, mapSet, sortJS, insertJS, JSNum.jmax_self]
  · simp [groupTextByPosition, groupStep, mkLineItem, itemHeight, h1y, h2y,
      h1t, h1s, h2t, h2s, mapSet, updateFirst, sortJS, insertJS,
      JSNum.jmax_self]

/-- Witness for `groupTextByPosition_nan_kept` at two concrete NaN-anchored
fragments. -/
theorem groupTextByPosition_nan_kept_witness :
    roundY (nanItem "a".toList).transform5 = JSNum.nan ∧
    trimJs (nanItem "a".toList).str ≠ [] ∧
    (groupTextByPosition [nanItem "a".toList] 600).map
        (fun g => g.items.map LineItem.str) = [["a".toList]] ∧
    (groupTextByPosition [nanItem "a".toList, nanItem "b".toList] 600).map
        (fun g => g.items.map LineItem.str) = [["b".toList]] :=
  ⟨rfl, by decide,
    (groupTextByPosition_nan_kept (nanItem "a".toList) (nanItem "b".toList)
      600 rfl rfl (by decide) (by decide)).1,
    (groupTextByPosition_nan_kept (nanItem "a".toList) (nanItem "b".toList)
      600 rfl rfl (by decide) (by decide)).2⟩

/-- C7 counterexample: a fragment with NaN vertical position is not
reported or dropped — it is clustered into its own line and the page still
emits a paragraph for it. -/
theorem c7_nan_fragment_emitted :
    (groupTextByPosition [nanItem "a".toList] 600).map
        (fun g => g.items.map LineItem.str) = [["a".toList]] ∧
    (pageElements [nanItem "a".toList] 600).length = 1 := by
  constructor
  · norm_num +decide [groupTextByPosition, groupStep, mkLineItem, itemHeight,
      nanItem, mapSet, sortJS, insertJS, JSNum.jmax_self]
  · norm_num +decide [pageElements, groupTextByPosition, groupStep, mkLineItem,
      itemHeight, nanItem,
      mapSet, sortJS, insertJS, JSNum.jmax_self, analyzeLineGroup, buildRuns,
      isBoldName, isItalicName, isCenteredB, isRightAlignedB, inferAlignment,
      abs_of_nonneg, abs_of_neg]

/-! ## C2 — the y-threshold stability of line clustering -/

theorem roundY_fin (y : ℚ) :
    roundY (JSNum.fin y) = JSNum.fin (roundTenth y) := by
  have h10 : (10 : ℚ) ≠ 0 := by norm_num
  simp [roundY, roundTenth, JSNum.jdiv_fin_of_ne _ _ h10]

/-- C2 (amended): when a page's input consists of exactly the two fragments
`fa` and `fb` (with non-blank text), they are clustered into one line iff
their vertical positions, rounded to one decimal place, differ by less than
1.5 — and this holds for both input orders.  With further fragments present
the property fails by anchor chaining (see the counterexample). -/
theorem two_fragment_cluster_iff (fa fb : PdfItem) (ya yb W : ℚ)
    (hya : fa.transform5 = JSNum.fin ya) (hyb : fb.transform5 = JSNum.fin yb)
    (hta : trimJs fa.str ≠ []) (htb : trimJs fb.str ≠ []) :
    ((groupTextByPosition [fa, fb] W).length = 1 ↔
      |roundTenth ya - roundTenth yb| < 3/2) ∧
    ((groupTextByPosition [fb, fa] W).length = 1 ↔
      |roundTenth ya - roundTenth yb| < 3/2) := by
  have key : ∀ (f g : PdfItem) (y z : ℚ), f.transform5 = JSNum.fin y →
      g.transform5 = JSNum.fin z → trimJs f.str ≠ [] → trimJs g.str ≠ [] →
      ((groupTextByPosition [f, g] W).length = 1 ↔
        |roundTenth y - roundTenth z| < 3/2) := by
    intro f g y z hy hz htf htg
    have hsf : f.str ≠ [] := fun h => htf (by simp [h, trimJs])
    have hsg : g.str ≠ [] := fun h => htg (by simp [h, trimJs])
    by_cases hlt : |roundTenth y - roundTenth z| < 3/2
    · simp [groupTextByPosition, groupStep, mkLineItem, itemHeight, hy, hz,
        htf, htg, hsf, hsg,
        roundY_fin, mapSet, updateFirst, sortJS_length, yThreshold, hlt,
        abs_sub_comm]
    · have hne : roundTenth y ≠ roundTenth z := by
        intro h
        exact hlt (by simp [h, sub_self, abs_zero])
      have hlt' : ¬ |roundTenth z - roundTenth y| < 3/2 := by
        rwa [abs_sub_comm]
      simp [groupTextByPosition, groupStep, mkLineItem, itemHeight, hy, hz,
        htf, htg, hsf, hsg,
        roundY_fin, mapSet, updateFirst, sortJS_length, yThreshold, hlt,
        hlt', hne, Ne.symm hne]
  refine ⟨key fa fb ya yb hya hyb hta htb, ?_⟩
  rw [abs_sub_comm]
  exact key fb fa yb ya hyb hya htb hta

/-- Witness for `two_fragment_cluster_iff` at fragments with `y = 0` and
`y = 1`. -/
theorem two_fragment_cluster_iff_witness :
    ((groupTextByPosition
        [simpleItem "wa".toList 0 0, simpleItem "wb".toList 5 1] 600).length
        = 1 ↔ |roundTenth 0 - roundTenth 1| < 3/2) ∧
    ((groupTextByPosition
        [simpleItem "wb".toList 5 1, simpleItem "wa".toList 0 0] 600).length
        = 1 ↔ |roundTenth 0 - roundTenth 1| < 3/2) :=
  two_fragment_cluster_iff (simpleItem "wa".toList 0 0)
    (simpleItem "wb".toList 5 1) 0 1 600 rfl rfl (by decide) (by decide)

/-- C2 counterexample: fragments `a` (y = 0) and `b` (y = 1.4) satisfy
`|a.y − b.y| = 1.4 < 1.5`, yet when a third fragment `c` (y = 2.5) is
processed first, `b` joins `c`'s line (the `find` scans lines in insertion
order and `|2.5 − 1.4| = 1.1 < 1.5`) while `a` sits in its own line — so
`a` and `b` do NOT share a line. -/
theorem c2_chaining_separates_close_fragments :
    |(0 : ℚ) - 7/5| < 3/2 ∧
    sameLineIn
      [simpleItem "c".toList 20 (5/2), simpleItem "a".toList 0 0,
       simpleItem "b".toList 10 (7/5)] 600 "a".toList "b".toList = false := by
  constructor
  · rw [zero_sub, abs_neg, abs_of_nonneg (by norm_num)]
    norm_num
  · norm_num +decide [sameLineIn, groupTextByPosition, groupStep, mkLineItem,
      itemHeight, simpleItem,
      roundY, mapSet, updateFirst, yThreshold, sortJS, insertJS,
      abs_of_nonneg, abs_of_neg]

/-! ## C1 — determinism and fragment-order sensitivity -/

theorem analyzeLineGroup_congr (g1 g2 : LineGroup) (W : ℚ)
    (hsorted :
      sortJS (fun a b : LineItem => !JSNum.jgtB (JSNum.jsub a.x b.x) (JSNum.fin 0))
        g1.items =
      sortJS (fun a b : LineItem => !JSNum.jgtB (JSNum.jsub a.x b.x) (JSNum.fin 0))
        g2.items)
    (hfs : g1.avgFontSize = g2.avgFontSize) :
    analyzeLineGroup g1 W = analyzeLineGroup g2 W := by
  unfold analyzeLineGroup
  rw [hsorted, hfs]

/-- C1 (amended): the engine is a deterministic function of the ordered
fragment list, but NOT of the fragment set: permutations can change the
output (see the counterexample).  Permutation invariance does hold for a
two-fragment page with finite coordinates and distinct `x` positions: both
input orders yield the identical paragraph sequence. -/
theorem pageElements_two_fragment_perm (fa fb : PdfItem) (xa xb ya yb W : ℚ)
    (hxa : fa.transform4 = JSNum.fin xa) (hxb : fb.transform4 = JSNum.fin xb)
    (hya : fa.transform5 = JSNum.fin ya) (hyb : fb.transform5 = JSNum.fin yb)
    (hx : xa ≠ xb) (hta : trimJs fa.str ≠ []) (htb : trimJs fb.str ≠ []) :
    pageElements [fa, fb] W = pageElements [fb, fa] W := by
  have hsa : fa.str ≠ [] := fun h => hta (by simp [h, trimJs])
  have hsb : fb.str ≠ [] := fun h => htb (by simp [h, trimJs])
  by_cases hlt : |roundTenth ya - roundTenth yb| < 3/2
  · -- both orders produce a single line holding both fragments
    have hlt' : |roundTenth yb - roundTenth ya| < 3/2 := by
      rwa [abs_sub_comm]
    have hG1 : groupTextByPosition [fa, fb] W =
        [⟨JSNum.fin (roundTenth ya), [mkLineItem fa, mkLineItem fb],
          JSNum.jmax (JSNum.jmax (itemHeight fa) (itemHeight fa))
            (itemHeight fb)⟩] := by
      simp [groupTextByPosition, groupStep, hya, hyb, hta, htb, hsa, hsb,
        roundY_fin, mapSet, updateFirst, yThreshold, hlt, sortJS, insertJS]
    have hG2 : groupTextByPosition [fb, fa] W =
        [⟨JSNum.fin (roundTenth yb), [mkLineItem fb, mkLineItem fa],
          JSNum.jmax (JSNum.jmax (itemHeight fb) (itemHeight fb))
            (itemHeight fa)⟩] := by
      simp [groupTextByPosition, groupStep, hya, hyb, hta, htb, hsa, hsb,
        roundY_fin, mapSet, updateFirst, yThreshold, hlt', sortJS, insertJS]
    have hsort :
        sortJS (fun a b : LineItem => !JSNum.jgtB (JSNum.jsub a.x b.x) (JSNum.fin 0))
          [mkLineItem fa, mkLineItem fb] =
        sortJS (fun a b : LineItem => !JSNum.jgtB (JSNum.jsub a.x b.x) (JSNum.fin 0))
          [mkLineItem fb, mkLineItem fa] := by
      rcases lt_or_gt_of_ne hx with h | h <;>
        simp [sortJS, insertJS, mkLineItem, hxa, hxb, sub_pos, h, h.not_lt,
          le_of_lt h]
    have hfs : JSNum.jmax (JSNum.jmax (itemHeight fa) (itemHeight fa))
          (itemHeight fb) =
        JSNum.jmax (JSNum.jmax (itemHeight fb) (itemHeight fb))
          (itemHeight fa) := by
      rw [JSNum.jmax_self, JSNum.jmax_self, JSNum.jmax_comm]
    simp only [pageElements, hG1, hG2, List.map_cons, List.map_nil]
    rw [analyzeLineGroup_congr
      ⟨JSNum.fin (roundTenth ya), [mkLineItem fa, mkLineItem fb],
        JSNum.jmax (JSNum.jmax (itemHeight fa) (itemHeight fa))
          (itemHeight fb)⟩
      ⟨JSNum.fin (roundTenth yb), [mkLineItem fb, mkLineItem fa],
        JSNum.jmax (JSNum.jmax (itemHeight fb) (itemHeight fb))
          (itemHeight fa)⟩
      W hsort hfs]
  · -- both orders produce the same two single-fragment lines
    have hne : roundTenth ya ≠ roundTenth yb := fun h =>
      hlt (by simp [h, sub_self, abs_zero])
    have hlt2 : ¬ |roundTenth yb - roundTenth ya| < 3/2 := by
      rwa [abs_sub_comm]
    rcases lt_or_gt_of_ne hne with h | h <;>
      simp [pageElements, groupTextByPosition, groupStep, hya, hyb, hta, htb,
        hsa, hsb, roundY_fin, mapSet, updateFirst, yThreshold, hlt, hlt2,
        hne, Ne.symm hne, sortJS, insertJS, sub_pos, h, h.not_lt,
        le_of_lt h]

/-- Witness for `pageElements_two_fragment_perm` at two concrete
fragments. -/
theorem pageElements_two_fragment_perm_witness :
    pageElements [simpleItem "p".toList 0 0, simpleItem "q".toList 5 1] 600 =
      pageElements [simpleItem "q".toList 5 1, simpleItem "p".toList 0 0]
        600 :=
  pageElements_two_fragment_perm _ _ 0 5 0 1 600 rfl rfl rfl rfl
    (by norm_num) (by decide) (by decide)

/-- C1 counterexample: the fragment sets `{a(y=0), b(y=1.4), c(y=2.8)}` in
the orders `[a, b, c]` and `[b, a, c]` are permutations of each other, yet
the first order yields two paragraphs (lines `{a, b}` and `{c}`) while the
second yields one (all three chained into `b`'s line): the engine is not a
function of the fragment set. -/
theorem c1_order_dependent :
    List.Perm
      [simpleItem "b".toList 10 (7/5), simpleItem "a".toList 0 0,
       simpleItem "c".toList 20 (14/5)]
      [simpleItem "a".toList 0 0, simpleItem "b".toList 10 (7/5),
       simpleItem "c".toList 20 (14/5)] ∧
    (pageElements
      [simpleItem "a".toList 0 0, simpleItem "b".toList 10 (7/5),
       simpleItem "c".toList 20 (14/5)] 600).length = 2 ∧
    (pageElements
      [simpleItem "b".toList 10 (7/5), simpleItem "a".toList 0 0,
       simpleItem "c".toList 20 (14/5)] 600).length = 1 := by
  refine ⟨List.Perm.swap _ _ _, ?_, ?_⟩ <;>
    norm_num +decide [pageElements, groupTextByPosition, groupStep,
      mkLineItem, itemHeight, simpleItem, roundY, mapSet, updateFirst,
      yThreshold, sortJS, insertJS, analyzeLineGroup, buildRuns, isBoldName,
      isItalicName, isCenteredB, isRightAlignedB, inferAlignment,
      abs_of_nonneg, abs_of_neg]

/-! ## C10 — every clustered line is emitted -/

theorem trimJs_eq_nil_iff (s : List Char) :
    trimJs s = [] ↔ ∀ c ∈ s, isJsWs c = true := by
  unfold trimJs
  rw [List.reverse_eq_nil_iff, List.dropWhile_eq_nil_iff]
  constructor
  · intro h c hc
    rcases List.mem_append.mp
        ((List.takeWhile_append_dropWhile (p := isJsWs) (l := s)) ▸ hc) with
      h1 | h2
    · exact List.mem_takeWhile_imp h1
    · exact h c (List.mem_reverse.mpr h2)
  · intro h x hx
    exact h x ((List.dropWhile_sublist isJsWs).subset (List.mem_reverse.mp hx))

theorem updateFirst_mem {α : Type} (p : α → Bool) (f : α → α) :
    ∀ (l : List α) (x : α), x ∈ updateFirst p f l → x ∈ l ∨ ∃ a ∈ l, x = f a := by
  intro l
  induction l with
  | nil => intro x hx; cases hx
  | cons a as ih =>
    intro x hx
    simp only [updateFirst] at hx
    split at hx
    · rcases List.mem_cons.mp hx with h | h
      · exact Or.inr ⟨a, List.mem_cons_self a as, h⟩
      · exact Or.inl (List.mem_cons_of_mem a h)
    · rcases List.mem_cons.mp hx with h | h
      · exact Or.inl (by simp [h])
      · rcases ih x h with h1 | ⟨b, hb, hbe⟩
        · exact Or.inl (List.mem_cons_of_mem a h1)
        · exact Or.inr ⟨b, List.mem_cons_of_mem a hb, hbe⟩

theorem mapSet_mem (m : List (JSNum × LineGroup)) (k : JSNum) (v : LineGroup)
    (x : JSNum × LineGroup) (hx : x ∈ mapSet m k v) :
    x ∈ m ∨ x.2 = v := by
  unfold mapSet at hx
  split at hx
  · rcases List.mem_map.mp hx with ⟨a, ha, rfl⟩
    split
    · exact Or.inr rfl
    · exact Or.inl ha
  · rcases List.mem_append.mp hx with h | h
    · exact Or.inl h
    · exact Or.inr (by simpa using congrArg Prod.snd (List.mem_singleton.mp h))

theorem groupStep_inv (m : List (JSNum × LineGroup)) (item : PdfItem)
    (hm : ∀ p ∈ m, p.2.items ≠ [] ∧
      ∀ li ∈ p.2.items, ∃ c ∈ li.str, isJsWs c = false) :
    ∀ p ∈ groupStep m item, p.2.items ≠ [] ∧
      ∀ li ∈ p.2.items, ∃ c ∈ li.str, isJsWs c = false := by
  intro p hp
  unfold groupStep at hp
  split at hp
  · exact hm p hp
  · next hskip =>
    have hnw : ∃ c ∈ item.str, isJsWs c = false := by
      simp only [Bool.or_eq_true, decide_eq_true_eq, not_or] at hskip
      by_contra hall
      push_neg at hall
      exact hskip.2 ((trimJs_eq_nil_iff item.str).mpr
        (fun c hc => by simpa using hall c hc))
    dsimp only at hp
    split at hp
    · rcases updateFirst_mem _ _ _ p hp with h | ⟨a, ha, rfl⟩
      · exact hm p h
      · refine ⟨by simp, fun li hli => ?_⟩
        rcases List.mem_append.mp hli with h1 | h2
        · exact (hm a ha).2 li h1
        · rcases List.mem_singleton.mp h2 with rfl
          simpa [mkLineItem] using hnw
    · rcases mapSet_mem _ _ _ p hp with h | h
      · exact hm p h
      · refine ⟨by simp [h], fun li hli => ?_⟩
        rw [h] at hli
        rcases List.mem_singleton.mp (by simpa using hli) with rfl
        simpa [mkLineItem] using hnw

theorem foldl_groupStep_inv (items : List PdfItem) :
    ∀ m, (∀ p ∈ m, p.2.items ≠ [] ∧
        ∀ li ∈ p.2.items, ∃ c ∈ li.str, isJsWs c = false) →
      ∀ p ∈ items.foldl groupStep m, p.2.items ≠ [] ∧
        ∀ li ∈ p.2.items, ∃ c ∈ li.str, isJsWs c = false := by
  induction items with
  | nil => intro m hm; exact hm
  | cons item rest ih =>
    intro m hm
    exact ih (groupStep m item) (groupStep_inv m item hm)

theorem groupTextByPosition_nonblank (items : List PdfItem) (W : ℚ) :
    ∀ g ∈ groupTextByPosition items W, g.items ≠ [] ∧
      ∀ li ∈ g.items, ∃ c ∈ li.str, isJsWs c = false := by
  intro g hg
  rw [groupTextByPosition] at hg
  rw [sortJS_mem] at hg
  rcases List.mem_map.mp hg with ⟨p, hp, rfl⟩
  exact foldl_groupStep_inv items [] (by simp) p hp

theorem buildRuns_text_mem (items : List LineItem) :
    ∀ prev (c : Char), (∃ li ∈ items, c ∈ li.str) →
      c ∈ (buildRuns prev items).2.1 := by
  induction items with
  | nil => intro prev c h; simp at h
  | cons item rest ih =>
    intro prev c h
    have hsplit : (buildRuns prev (item :: rest)).2.1 =
        (match prev with
          | some p =>
            if JSNum.jgtB (JSNum.jsub item.x (JSNum.jadd p.x p.width))
                (JSNum.fin 2) then [' '] else []
          | none => ([] : List Char)) ++ item.str ++
          (buildRuns (some item) rest).2.1 := by
      cases prev with
      | none => simp [buildRuns]
      | some p =>
        by_cases hg : JSNum.jgtB (JSNum.jsub item.x (JSNum.jadd p.x p.width))
            (JSNum.fin 2) = true
        · simp [buildRuns, hg]
        · simp [buildRuns, hg]
    rw [hsplit]
    rcases h with ⟨li, hli, hc⟩
    rcases List.mem_cons.mp hli with h1 | h2
    · exact List.mem_append.mpr (Or.inl (List.mem_append.mpr (Or.inr (h1 ▸ hc))))
    · exact List.mem_append.mpr (Or.inr (ih (some item) c ⟨li, h2, hc⟩))

theorem analyzeLineGroup_isSome (g : LineGroup) (W : ℚ)
    (h : ∃ li ∈ g.items, ∃ c ∈ li.str, isJsWs c = false) :
    (analyzeLineGroup g W).isSome = true := by
  obtain ⟨li, hli, c, hc, hcw⟩ := h
  have hmem : c ∈ (buildRuns none
      (sortJS (fun a b : LineItem => !JSNum.jgtB (JSNum.jsub a.x b.x)
        (JSNum.fin 0)) g.items)).2.1 :=
    buildRuns_text_mem _ none c ⟨li, (sortJS_mem _ _ li).mpr hli, hc⟩
  have htrim : trimJs (buildRuns none
      (sortJS (fun a b : LineItem => !JSNum.jgtB (JSNum.jsub a.x b.x)
        (JSNum.fin 0)) g.items)).2.1 ≠ [] := by
    intro he
    have := (trimJs_eq_nil_iff _).mp he c hmem
    rw [hcw] at this
    cases this
  simp [analyzeLineGroup, htrim]

/-- C10 (confirmed): since `groupTextByPosition` admits only fragments with
non-blank text into line groups, the whitespace-only rejection branch of
`analyzeLineGroup` is unreachable on clustered lines: every clustered line
analyzes to `some` element, and the page's element list has exactly one
entry per clustered line. -/
theorem clustered_line_always_emitted (items : List PdfItem) (W : ℚ)
    (g : LineGroup) (hg : g ∈ groupTextByPosition items W) :
    (analyzeLineGroup g W).isSome = true ∧
    (pageElements items W).length = (groupTextByPosition items W).length := by
  have hall : ∀ g' ∈ groupTextByPosition items W,
      (analyzeLineGroup g' W).isSome = true := by
    intro g' hg'
    obtain ⟨hne, hnb⟩ := groupTextByPosition_nonblank items W g' hg'
    obtain ⟨li, hli⟩ := List.exists_mem_of_ne_nil g'.items hne
    exact analyzeLineGroup_isSome g' W ⟨li, hli, hnb li hli⟩
  refine ⟨hall g hg, ?_⟩
  rw [pageElements]
  generalize groupTextByPosition items W = ls at hall ⊢
  induction ls with
  | nil => rfl
  | cons x xs ih =>
    obtain ⟨e, he⟩ := Option.isSome_iff_exists.mp
      (hall x (List.mem_cons_self x xs))
    simp only [List.map_cons, he, List.filterMap_cons, id_eq, List.length_cons]
    rw [ih (fun g' hg' => hall g' (List.mem_cons_of_mem x hg'))]

/-- Witness for `clustered_line_always_emitted` at a one-fragment page. -/
theorem clustered_line_always_emitted_witness :
    (analyzeLineGroup
      ⟨JSNum.fin 0,
        [{ str := "w".toList, x := JSNum.fin 0, width := JSNum.fin 0,
           height := JSNum.fin 12, fontName := none }],
        JSNum.fin 12⟩ 600).isSome = true ∧
    (pageElements [simpleItem "w".toList 0 0] 600).length =
      (groupTextByPosition [simpleItem "w".toList 0 0] 600).length :=
  clustered_line_always_emitted [simpleItem "w".toList 0 0] 600 _ (by
    norm_num +decide [groupTextByPosition, groupStep, mkLineItem, itemHeight,
      simpleItem, roundY, mapSet, sortJS, insertJS, JSNum.jmax_self])

/-! ## C8 — anchors of distinct lines are separated -/

theorem svz_eq (a b : JSNum) : JSNum.svz a b = true ↔ a = b := by
  cases a <;> cases b <;> simp [JSNum.svz]

theorem nomerge_symm (a b : JSNum) :
    JSNum.jltB (JSNum.jabs (JSNum.jsub a b)) yThreshold =
      JSNum.jltB (JSNum.jabs (JSNum.jsub b a)) yThreshold := by
  cases a <;> cases b <;> simp [JSNum.jsub, JSNum.jabs, JSNum.jltB, abs_sub_comm]

theorem nomerge_of_nonfin (a b : JSNum) (h : ∀ q : ℚ, a ≠ JSNum.fin q) :
    JSNum.jltB (JSNum.jabs (JSNum.jsub a b)) yThreshold = false := by
  cases a with
  | fin q => exact absurd rfl (h q)
  | nan => cases b <;> rfl
  | inf => cases b <;> rfl
  | ninf => cases b <;> rfl

theorem pairwise_updateFirst {α : Type} (R : α → α → Prop) (p : α → Bool)
    (f : α → α) (l : List α) (hp : List.Pairwise R l)
    (hf : ∀ a ∈ l, ∀ b, (R a b → R (f a) b) ∧ (R b a → R b (f a))) :
    List.Pairwise R (updateFirst p f l) := by
  induction l with
  | nil => simp [updateFirst]
  | cons a as ih =>
    rcases List.pairwise_cons.mp hp with ⟨ha, has⟩
    simp only [updateFirst]
    split
    · refine List.pairwise_cons.mpr ⟨?_, has⟩
      intro b hb
      exact (hf a (List.mem_cons_self a as) b).1 (ha b hb)
    · refine List.pairwise_cons.mpr
        ⟨?_, ih has (fun x hx => hf x (List.mem_cons_of_mem a hx))⟩
      intro b hb
      rcases updateFirst_mem p f as b hb with h1 | ⟨c, hc, hce⟩
      · exact ha b h1
      · rw [hce]
        exact (hf c (List.mem_cons_of_mem a hc) a).2 (ha c hc)

theorem pairwise_map_of {α : Type} (R : α → α → Prop) (f : α → α)
    (l : List α) (hp : List.Pairwise R l)
    (hf : ∀ p ∈ l, f p = p ∨ (∀ x, R (f p) x ∧ R x (f p))) :
    List.Pairwise R (l.map f) := by
  induction l with
  | nil => simp
  | cons a as ih =>
    rw [List.map_cons]
    rcases List.pairwise_cons.mp hp with ⟨ha, has⟩
    refine List.pairwise_cons.mpr
      ⟨?_, ih has (fun q hq => hf q (List.mem_cons_of_mem a hq))⟩
    intro b hb
    rcases List.mem_map.mp hb with ⟨q, hq, rfl⟩
    rcases hf a (List.mem_cons_self a as) with hfa | hfa
    · rcases hf q (List.mem_cons_of_mem a hq) with hfq | hfq
      · rw [hfa, hfq]; exact ha q hq
      · exact (hfq (f a)).2
    · exact (hfa (f q)).1

theorem groupStep_sep (m : List (JSNum × LineGroup)) (item : PdfItem)
    (h : List.Pairwise (fun p q : JSNum × LineGroup =>
        JSNum.jltB (JSNum.jabs (JSNum.jsub p.2.y q.2.y)) yThreshold = false) m ∧
      ∀ p ∈ m, p.1 = p.2.y) :
    List.Pairwise (fun p q : JSNum × LineGroup =>
        JSNum.jltB (JSNum.jabs (JSNum.jsub p.2.y q.2.y)) yThreshold = false)
      (groupStep m item) ∧
    ∀ p ∈ groupStep m item, p.1 = p.2.y := by
  obtain ⟨hpw, hkeys⟩ := h
  unfold groupStep
  split
  · exact ⟨hpw, hkeys⟩
  · dsimp only
    split
    · -- a fragment joined an existing group: anchors unchanged
      constructor
      · exact pairwise_updateFirst _ _ _ m hpw
          (fun a _ b => ⟨fun hr => hr, fun hr => hr⟩)
      · intro p hp
        rcases updateFirst_mem _ _ m p hp with h1 | ⟨a, ha, hae⟩
        · exact hkeys p h1
        · rw [hae]; exact hkeys a ha
    · -- a new group: every retained anchor is far from the new one
      next hfound =>
      have hnone : List.find? (fun p : JSNum × LineGroup =>
          JSNum.jltB (JSNum.jabs (JSNum.jsub p.2.y (roundY item.transform5)))
            yThreshold) m = none := by
        cases hopt : List.find? (fun p : JSNum × LineGroup =>
            JSNum.jltB (JSNum.jabs (JSNum.jsub p.2.y (roundY item.transform5)))
              yThreshold) m with
        | none => rfl
        | some v => rw [hopt] at hfound; simp at hfound
      have hhits : ∀ p ∈ m, JSNum.jltB (JSNum.jabs (JSNum.jsub p.2.y
          (roundY item.transform5))) yThreshold = false := by
        intro p hp
        simpa using List.find?_eq_none.mp hnone p hp
      unfold mapSet
      split
      · -- `Map.set` key collision: the colliding key is non-finite
        next hany =>
        have hynf : ∀ q : ℚ, roundY item.transform5 ≠ JSNum.fin q := by
          intro q hq
          rcases List.any_eq_true.mp hany with ⟨p, hpm, hsvz⟩
          have hk : p.1 = roundY item.transform5 := (svz_eq _ _).mp hsvz
          have hfar := hhits p hpm
          rw [← hkeys p hpm, hk, hq] at hfar
          norm_num [yThreshold, sub_self, abs_zero] at hfar
        constructor
        · apply pairwise_map_of _ _ m hpw
          intro p hpm
          by_cases hsvz : JSNum.svz p.1 (roundY item.transform5) = true
          · right
            intro x
            rw [if_pos hsvz]
            constructor
            · exact nomerge_of_nonfin _ _ hynf
            · rw [nomerge_symm]
              exact nomerge_of_nonfin _ _ hynf
          · left
            simp [hsvz]
        · intro p hp
          rcases List.mem_map.mp hp with ⟨a, ham, rfl⟩
          by_cases hsvz : JSNum.svz a.1 (roundY item.transform5) = true
          · rw [if_pos hsvz]
            exact (svz_eq _ _).mp hsvz
          · rw [if_neg hsvz]
            exact hkeys a ham
      · -- plain append of the new group
        constructor
        · refine List.pairwise_append.mpr ⟨hpw, by simp, ?_⟩
          intro a ha b hb
          rw [List.mem_singleton.mp hb]
          exact hhits a ha
        · intro p hp
          rcases List.mem_append.mp hp with h1 | h2
          · exact hkeys p h1
          · rw [List.mem_singleton.mp h2]

theorem foldl_groupStep_sep (items : List PdfItem) :
    ∀ m, (List.Pairwise (fun p q : JSNum × LineGroup =>
        JSNum.jltB (JSNum.jabs (JSNum.jsub p.2.y q.2.y)) yThreshold = false) m ∧
      ∀ p ∈ m, p.1 = p.2.y) →
      List.Pairwise (fun p q : JSNum × LineGroup =>
        JSNum.jltB (JSNum.jabs (JSNum.jsub p.2.y q.2.y)) yThreshold = false)
        (items.foldl groupStep m) ∧
      ∀ p ∈ items.foldl groupStep m, p.1 = p.2.y := by
  induction items with
  | nil => intro m hm; exact hm
  | cons item rest ih =>
    intro m hm
    exact ih (groupStep m item) (groupStep_sep m item hm)

/-- C8 (confirmed): any two distinct lines of the clustering output have
anchors that fail the merge test — in particular, any two finite anchor
values differ by at least the 1.5-unit threshold. -/
theorem groupTextByPosition_anchor_separation (items : List PdfItem)
    (W : ℚ) :
    List.Pairwise (fun g1 g2 : LineGroup =>
      JSNum.jltB (JSNum.jabs (JSNum.jsub g1.y g2.y)) yThreshold = false ∧
      ∀ q1 q2 : ℚ, g1.y = JSNum.fin q1 → g2.y = JSNum.fin q2 →
        3/2 ≤ |q1 - q2|) (groupTextByPosition items W) := by
  have hfold := foldl_groupStep_sep items [] ⟨List.Pairwise.nil, by simp⟩
  have hmap : List.Pairwise (fun g1 g2 : LineGroup =>
      JSNum.jltB (JSNum.jabs (JSNum.jsub g1.y g2.y)) yThreshold = false)
      ((items.foldl groupStep []).map Prod.snd) :=
    List.pairwise_map.mpr hfold.1
  have hsym : Symmetric (fun g1 g2 : LineGroup =>
      JSNum.jltB (JSNum.jabs (JSNum.jsub g1.y g2.y)) yThreshold = false) :=
    fun g1 g2 hg => (nomerge_symm g2.y g1.y).trans hg
  have hsorted : List.Pairwise (fun g1 g2 : LineGroup =>
      JSNum.jltB (JSNum.jabs (JSNum.jsub g1.y g2.y)) yThreshold = false)
      (groupTextByPosition items W) := by
    rw [groupTextByPosition]
    exact ((sortJS_perm _ _).pairwise_iff (fun h12 => hsym h12)).mpr hmap
  refine hsorted.imp (fun hb => ⟨hb, ?_⟩)
  intro q1 q2 e1 e2
  rw [e1, e2] at hb
  simp only [JSNum.jsub_fin, JSNum.jabs_fin, yThreshold, JSNum.jltB_fin,
    decide_eq_false_iff_not, not_lt] at hb
  exact hb
